import Mathlib

/-!
A shallow embedding of the redeploy service and proofs about its
specification.

The embedding covers the compose-style `Service` data model and its
compiler `Service.createContainerOptions` (config/config.go), the sort of
the service list performed by `LoadConfig`, the image index and the
`handler.New` construction, and the webhook handler reconciliation loop of
`DockerHook.ServeHTTP` (handler/handler.go).

Go maps are embedded as association lists of their entries.  Wherever the
source ranges over a Go map, the key iteration order is passed explicitly,
because the Go language leaves map iteration order unspecified and the
runtime randomises it: every permutation of the keys is an order an actual
execution can observe.
-/

namespace Redeploy

/-- Entries of a Go map keyed by strings; a well-formed value holds each key
at most once. -/
abbrev GoMap (β : Type) := List (String × β)

/-- Go map lookup: the value of the first entry with the given key, `none`
when the key is absent (the Go comma-ok form with `ok = false`). -/
def goLookup {β : Type} : GoMap β → String → Option β
  | [], _ => none
  | (k2, v) :: rest, k => if k2 == k then some v else goLookup rest k

/-- The Go statement `m[k] = append(m[k], v)`: append `v` to the entry of
`k`, creating the entry when absent. -/
def goAppendAt {β : Type} : GoMap (List β) → String → β → GoMap (List β)
  | [], k, v => [(k, [v])]
  | (k2, l) :: rest, k, v =>
    if k2 == k then (k2, l ++ [v]) :: rest else (k2, l) :: goAppendAt rest k v

/-- The Go statement `m[k] = v`: set the value at `k`, creating the entry
when absent. -/
def goInsert {β : Type} : GoMap β → String → β → GoMap β
  | [], k, v => [(k, v)]
  | (k2, w) :: rest, k, v =>
    if k2 == k then (k2, v) :: rest else (k2, w) :: goInsert rest k v

/-- The Go statement `m[k] = struct\x7b\x7d\x7b\x7d` on a set-like map:
record the key once. -/
def goInsertKey (l : List String) (k : String) : List String :=
  if l.contains k then l else l ++ [k]

/-- Ranging over a Go map with an explicit key iteration order: visit the
entry of each key of the order in turn, skipping keys absent from the map. -/
def iterGoMap {β : Type} (m : GoMap β) (order : List String) : GoMap β :=
  order.filterMap (fun k => (goLookup m k).map (fun v => (k, v)))

/-- Code-point order on characters, modelling the byte order Go uses to
compare strings (UTF-8 byte order agrees with code-point order). -/
def charLt (a b : Char) : Bool := a.toNat < b.toNat

/-- Lexicographic order on character lists. -/
def lexLt : List Char → List Char → Bool
  | [], [] => false
  | [], _ :: _ => true
  | _ :: _, [] => false
  | a :: as, b :: bs => if charLt a b then true else if charLt b a then false else lexLt as bs

/-- The Go comparison `a < b` on strings. -/
def strLt (a b : String) : Bool := lexLt a.toList b.toList

/-- `strings.Split` with a single-character separator; the source only ever
splits on a colon. -/
def goSplit (sep : Char) (s : String) : List String :=
  (s.toList.splitOn sep).map (fun cs => String.mk cs)

/-! ### The container runtime specification (fsouza/go-dockerclient types)

Only the fields the compiler can set are carried; every omitted field of
the Go struct keeps its zero value in all reachable states, so equality of
these records is equality of the Go values. -/

/-- docker.Device. -/
structure Device where
  pathOnHost : String := ""
  pathInContainer : String := ""
  deriving DecidableEq

/-- docker.ULimit. -/
structure ULimit where
  name : String := ""
  soft : Int := 0
  hard : Int := 0
  deriving DecidableEq

/-- docker.LogConfig. -/
structure LogConfig where
  type : String := ""
  config : GoMap String := []
  deriving DecidableEq

/-- docker.RestartPolicy. -/
structure RestartPolicy where
  name : String := ""
  maximumRetryCount : Int := 0
  deriving DecidableEq

/-- docker.BindOptions. -/
structure BindOptions where
  propagation : String := ""
  deriving DecidableEq

/-- docker.TempfsOptions. -/
structure TempfsOptions where
  sizeBytes : Int := 0
  deriving DecidableEq

/-- docker.VolumeOptions. -/
structure VolumeOptions where
  noCopy : Bool := false
  deriving DecidableEq

/-- docker.HostMount. -/
structure HostMount where
  source : String := ""
  target : String := ""
  readOnly : Bool := false
  type : String := ""
  bindOptions : Option BindOptions := none
  tempfsOptions : Option TempfsOptions := none
  volumeOptions : Option VolumeOptions := none
  deriving DecidableEq

/-- docker.PortBinding. -/
structure PortBinding where
  hostIP : String := ""
  hostPort : String := ""
  deriving DecidableEq

/-- docker.HealthConfig; the duration fields count nanoseconds. -/
structure HealthConfig where
  test : List String := []
  interval : Int := 0
  timeout : Int := 0
  startPeriod : Int := 0
  retries : Int := 0
  deriving DecidableEq

/-- docker.EndpointConfig. -/
structure EndpointConfig where
  aliases : List String := []
  ipAddress : String := ""
  globalIPv6Address : String := ""
  deriving DecidableEq

/-- docker.NetworkingConfig. -/
structure NetworkingConfig where
  endpointsConfig : GoMap EndpointConfig := []
  deriving DecidableEq

/-- docker.Config (the process-level container configuration). -/
structure ContainerConfig where
  hostname : String := ""
  domainname : String := ""
  user : String := ""
  stopSignal : String := ""
  cmd : List String := []
  dns : List String := []
  image : String := ""
  workingDir : String := ""
  macAddress : String := ""
  entrypoint : List String := []
  securityOpts : List String := []
  labels : GoMap String := []
  attachStderr : Bool := false
  attachStdout : Bool := false
  attachStdin : Bool := false
  tty : Bool := false
  openStdin : Bool := false
  networkDisabled : Bool := false
  healthcheck : Option HealthConfig := none
  env : List String := []
  stopTimeout : Int := 0
  portSpecs : List String := []
  exposedPorts : List String := []
  memory : Int := 0
  memoryReservation : Int := 0
  deriving DecidableEq

/-- docker.HostConfig. -/
structure HostConfig where
  capAdd : List String := []
  capDrop : List String := []
  links : List String := []
  dns : List String := []
  dnsSearch : List String := []
  extraHosts : List String := []
  networkMode : String := ""
  ipcMode : String := ""
  pidMode : String := ""
  securityOpt : List String := []
  cgroupParent : String := ""
  privileged : Bool := false
  publishAllPorts : Bool := false
  readonlyRootfs : Bool := false
  tmpfs : GoMap String := []
  ulimits : List ULimit := []
  devices : List Device := []
  logConfig : LogConfig := {}
  restartPolicy : RestartPolicy := {}
  mounts : List HostMount := []
  portBindings : GoMap (List PortBinding) := []
  memory : Int := 0
  memoryReservation : Int := 0
  deriving DecidableEq

/-- docker.CreateContainerOptions, the ContainerSpec of the specification. -/
structure CreateContainerOptions where
  name : String := ""
  config : ContainerConfig := {}
  hostConfig : HostConfig := {}
  networkingConfig : Option NetworkingConfig := none
  deriving DecidableEq

/-! ### The declarative Service (docker/cli compose types) -/

/-- types.ServiceNetworkConfig. -/
structure ServiceNetworkConfig where
  aliases : List String := []
  ipv4Address : String := ""
  ipv6Address : String := ""
  deriving DecidableEq

/-- types.UlimitsConfig (only the fields the compiler reads). -/
structure UlimitsConfig where
  soft : Int := 0
  hard : Int := 0
  deriving DecidableEq

/-- types.LoggingConfig. -/
structure LoggingConfig where
  driver : String := ""
  options : GoMap String := []
  deriving DecidableEq

/-- types.RestartPolicy of the deploy block. -/
structure DeployRestartPolicy where
  condition : String := ""
  maxAttempts : Option Int := none
  deriving DecidableEq

/-- types.Resource (only MemoryBytes is read). -/
structure ResourceLimit where
  memoryBytes : Int := 0
  deriving DecidableEq

/-- types.Resources. -/
structure Resources where
  limits : Option ResourceLimit := none
  reservations : Option ResourceLimit := none
  deriving DecidableEq

/-- types.DeployConfig (only the fields the compiler reads). -/
structure DeployConfig where
  restartPolicy : Option DeployRestartPolicy := none
  resources : Resources := {}
  deriving DecidableEq

/-- types.ServiceVolumeBind. -/
structure ServiceVolumeBind where
  propagation : String := ""
  deriving DecidableEq

/-- types.ServiceVolumeTmpfs. -/
structure ServiceVolumeTmpfs where
  size : Int := 0
  deriving DecidableEq

/-- types.ServiceVolumeVolume. -/
structure ServiceVolumeVolume where
  noCopy : Bool := false
  deriving DecidableEq

/-- types.ServiceVolumeConfig. -/
structure ServiceVolumeConfig where
  type : String := ""
  source : String := ""
  target : String := ""
  readOnly : Bool := false
  bind : Option ServiceVolumeBind := none
  tmpfs : Option ServiceVolumeTmpfs := none
  volume : Option ServiceVolumeVolume := none
  deriving DecidableEq

/-- types.HealthCheckConfig; durations count nanoseconds. -/
structure HealthCheckConfig where
  test : List String := []
  disable : Bool := false
  retries : Option Int := none
  timeout : Option Int := none
  interval : Option Int := none
  startPeriod : Option Int := none
  deriving DecidableEq

/-- types.ServicePortConfig; Target and Published are uint32 values. -/
structure ServicePortConfig where
  mode : String := ""
  target : Nat := 0
  published : Nat := 0
  protocol : String := ""
  deriving DecidableEq

/-- config.Service, a service declaration of the compose file (the fields
`Service.CreateContainerOptions` reads).  `environment` is a Go map whose
values are string pointers, `networks` maps network names to endpoint
declarations, and `ulimits` maps limit names to their bounds. -/
structure Service where
  name : String := ""
  hostname : String := ""
  domainName : String := ""
  user : String := ""
  stopSignal : String := ""
  command : List String := []
  dns : List String := []
  image : String := ""
  workingDir : String := ""
  macAddress : String := ""
  entrypoint : List String := []
  securityOpt : List String := []
  labels : GoMap String := []
  tty : Bool := false
  stdinOpen : Bool := false
  networkMode : String := ""
  capAdd : List String := []
  capDrop : List String := []
  links : List String := []
  dnsSearch : List String := []
  extraHosts : List String := []
  ipc : String := ""
  pid : String := ""
  cgroupParent : String := ""
  privileged : Bool := false
  readOnly : Bool := false
  networks : GoMap ServiceNetworkConfig := []
  tmpfs : List String := []
  ulimits : GoMap UlimitsConfig := []
  devices : List String := []
  logging : Option LoggingConfig := none
  deploy : DeployConfig := {}
  restart : String := ""
  volumes : List ServiceVolumeConfig := []
  healthCheck : Option HealthCheckConfig := none
  environment : GoMap (Option String) := []
  stopGracePeriod : Option Int := none
  ports : List ServicePortConfig := []
  expose : List String := []
  deriving DecidableEq

/-- The error `Service.CreateContainerOptions` can return. -/
inductive CompileErr where
  | invalidDevicePath (device : String)
  deriving DecidableEq

/-- The iteration orders an execution uses when the compiler ranges over the
three Go maps of a Service.  A valid order enumerates exactly the keys of
the corresponding map, in any order. -/
structure IterOrders where
  envOrder : List String := []
  netOrder : List String := []
  ulimitOrder : List String := []

/-- The device loop of the compiler: split each declared device string at
the colon; a string that does not split into exactly two parts stops the
loop with an error (the devices collected so far are kept, as in the
source, which appends to the options before returning the error). -/
def devicesOf : List String → List Device × Option CompileErr
  | [] => ([], none)
  | d :: rest =>
    match goSplit ':' d with
    | [host, container] =>
      let r := devicesOf rest
      ({ pathOnHost := host, pathInContainer := container } :: r.1, r.2)
    | _ => ([], some (.invalidDevicePath d))

/-- Serialisation of one environment entry: `KEY=value`, and `KEY=` for a
nil value pointer. -/
def envEntryString : String × Option String → String
  | (key, some v) => key ++ "=" ++ v
  | (key, none) => key ++ "="

/-- The initial options record of `Service.CreateContainerOptions`: the
fields copied directly from the declaration, the forced attach flags and
the forced PublishAllPorts. -/
def baseOptions (s : Service) : CreateContainerOptions :=
  { name := s.name
    config :=
      { hostname := s.hostname
        domainname := s.domainName
        user := s.user
        stopSignal := s.stopSignal
        cmd := s.command
        dns := s.dns
        image := s.image
        workingDir := s.workingDir
        macAddress := s.macAddress
        entrypoint := s.entrypoint
        securityOpts := s.securityOpt
        labels := s.labels
        attachStderr := true
        attachStdout := true
        attachStdin := false
        tty := s.tty
        openStdin := s.stdinOpen
        networkDisabled := s.networkMode == "none" }
    hostConfig :=
      { capAdd := s.capAdd
        capDrop := s.capDrop
        links := s.links
        dns := s.dns
        dnsSearch := s.dnsSearch
        extraHosts := s.extraHosts
        networkMode := s.networkMode
        ipcMode := s.ipc
        pidMode := s.pid
        securityOpt := s.securityOpt
        cgroupParent := s.cgroupParent
        privileged := s.privileged
        publishAllPorts := true
        readonlyRootfs := s.readOnly }
    networkingConfig := none }

/-- The networks branch: build the per-network endpoint map, iterated in
the given order. -/
def withNetworks (s : Service) (netL : GoMap ServiceNetworkConfig)
    (c : CreateContainerOptions) : CreateContainerOptions :=
  if 0 < s.networks.length then
    { c with
        networkingConfig := some
          ({ endpointsConfig := netL.map (fun p =>
              (p.1,
                { aliases := p.2.aliases
                  ipAddress := p.2.ipv4Address
                  globalIPv6Address := p.2.ipv6Address })) }) }
  else c

/-- The tmpfs branch: every declared tmpfs path maps to an empty option
string. -/
def withTmpfs (s : Service) (c : CreateContainerOptions) : CreateContainerOptions :=
  if 0 < s.tmpfs.length then
    { c with hostConfig.tmpfs := s.tmpfs.foldl (fun m t => goInsert m t "") [] }
  else c

/-- The ulimits branch, iterated in the given order. -/
def withUlimits (s : Service) (ulimL : GoMap UlimitsConfig)
    (c : CreateContainerOptions) : CreateContainerOptions :=
  if 0 < s.ulimits.length then
    { c with hostConfig.ulimits := c.hostConfig.ulimits ++
        ulimL.map (fun p => { name := p.1, soft := p.2.soft, hard := p.2.hard }) }
  else c

/-- The devices branch: install the devices collected by `devicesOf`. -/
def withDevices (s : Service) (ds : List Device) (c : CreateContainerOptions) :
    CreateContainerOptions :=
  if 0 < s.devices.length then { c with hostConfig.devices := ds } else c

/-- The logging branch. -/
def withLogging (s : Service) (c : CreateContainerOptions) : CreateContainerOptions :=
  match s.logging with
  | some lg => { c with hostConfig.logConfig := { type := lg.driver, config := lg.options } }
  | none => c

/-- The restart-policy branch: a deploy-level restart policy takes
precedence, otherwise the legacy restart string is used. -/
def withRestart (s : Service) (c : CreateContainerOptions) : CreateContainerOptions :=
  match s.deploy.restartPolicy with
  | some rp =>
    { c with hostConfig.restartPolicy :=
        { name := rp.condition
          maximumRetryCount := rp.maxAttempts.getD 0 } }
  | none =>
    { c with hostConfig.restartPolicy := { name := s.restart, maximumRetryCount := 0 } }

/-- Translation of one volume declaration to a host mount. -/
def mountOf (vol : ServiceVolumeConfig) : HostMount :=
  { source := vol.source
    target := vol.target
    readOnly := vol.readOnly
    type := vol.type
    bindOptions := vol.bind.map (fun b => { propagation := b.propagation })
    tempfsOptions := vol.tmpfs.map (fun t => { sizeBytes := t.size })
    volumeOptions := vol.volume.map (fun v => { noCopy := v.noCopy }) }

/-- The volumes branch. -/
def withVolumes (s : Service) (c : CreateContainerOptions) : CreateContainerOptions :=
  if 0 < s.volumes.length then
    { c with hostConfig.mounts := c.hostConfig.mounts ++ s.volumes.map mountOf }
  else c

/-- The health-check branch: only emitted when declared and not disabled;
absent optional fields leave the zero value. -/
def withHealthCheck (s : Service) (c : CreateContainerOptions) : CreateContainerOptions :=
  match s.healthCheck with
  | some hc =>
    if hc.disable then c
    else
      { c with
          config.healthcheck := some
            ({ test := hc.test
               retries := hc.retries.getD 0
               timeout := hc.timeout.getD 0
               interval := hc.interval.getD 0
               startPeriod := hc.startPeriod.getD 0 }) }
  | none => c

/-- The environment branch, iterated in the given order. -/
def withEnvironment (s : Service) (envL : GoMap (Option String))
    (c : CreateContainerOptions) : CreateContainerOptions :=
  if 0 < s.environment.length then
    { c with config.env := c.config.env ++ envL.map envEntryString }
  else c

/-- The stop-grace-period branch. -/
def withStopGracePeriod (s : Service) (c : CreateContainerOptions) : CreateContainerOptions :=
  match s.stopGracePeriod with
  | some d => { c with config.stopTimeout := d }
  | none => c

/-- One iteration of the ports loop: emit the textual port spec and the
structured binding of one declared port mapping. -/
def portStep (c : CreateContainerOptions) (p : ServicePortConfig) : CreateContainerOptions :=
  let outside := toString p.published
  let inside := toString p.target ++ "/" ++ p.protocol
  { c with
      config.portSpecs := c.config.portSpecs ++ [outside ++ ":" ++ inside]
      hostConfig.portBindings := goAppendAt c.hostConfig.portBindings inside
        ({ hostPort := outside }) }

/-- The ports branch: initialise the bindings map, then run the ports loop. -/
def withPorts (s : Service) (c : CreateContainerOptions) : CreateContainerOptions :=
  if 0 < s.ports.length then
    s.ports.foldl portStep { c with hostConfig.portBindings := [] }
  else c

/-- The expose branch: entries without a protocol default to tcp. -/
def withExpose (s : Service) (c : CreateContainerOptions) : CreateContainerOptions :=
  if 0 < s.expose.length then
    { c with
        config.exposedPorts := s.expose.foldl
          (fun acc e =>
            goInsertKey acc (if e.toList.contains '/' then e else e ++ "/tcp")) [] }
  else c

/-- The resource-limits branch. -/
def withLimits (s : Service) (c : CreateContainerOptions) : CreateContainerOptions :=
  match s.deploy.resources.limits with
  | some r => { c with config.memory := r.memoryBytes, hostConfig.memory := r.memoryBytes }
  | none => c

/-- The resource-reservations branch. -/
def withReservations (s : Service) (c : CreateContainerOptions) : CreateContainerOptions :=
  match s.deploy.resources.reservations with
  | some r =>
    { c with
        config.memoryReservation := r.memoryBytes
        hostConfig.memoryReservation := r.memoryBytes }
  | none => c

/-- The body of `Service.CreateContainerOptions`, with the three map
iterations abstracted over the entry lists they visit.  The branches are
applied in source order; a device error returns the options built so far
together with the error, skipping the remaining branches, exactly as the
early return of the source does. -/
def compileWith (s : Service) (envL : GoMap (Option String))
    (netL : GoMap ServiceNetworkConfig) (ulimL : GoMap UlimitsConfig) :
    CreateContainerOptions × Option CompileErr :=
  let c := baseOptions s
  let c := withNetworks s netL c
  let c := withTmpfs s c
  let c := withUlimits s ulimL c
  let devs := devicesOf s.devices
  let c := withDevices s devs.1 c
  match devs.2 with
  | some e => (c, some e)
  | none =>
    let c := withLogging s c
    let c := withRestart s c
    let c := withVolumes s c
    let c := withHealthCheck s c
    let c := withEnvironment s envL c
    let c := withStopGracePeriod s c
    let c := withPorts s c
    let c := withExpose s c
    let c := withLimits s c
    let c := withReservations s c
    (c, none)

/-- `Service.CreateContainerOptions`: compile a declaration to a container
spec, ranging over the environment, networks and ulimits maps in the given
iteration orders.  Returns the spec and the error of the Go pair return. -/
def Service.createContainerOptions (s : Service) (o : IterOrders) :
    CreateContainerOptions × Option CompileErr :=
  compileWith s (iterGoMap s.environment o.envOrder) (iterGoMap s.networks o.netOrder)
    (iterGoMap s.ulimits o.ulimitOrder)

/-! ### LoadConfig: the service order -/

/-- The comparison `sort.Slice` sorts with: not (b.Name < a.Name). -/
def nameLe (a b : Service) : Bool := !(strLt b.name a.name)

/-- Insert a service into a name-sorted list. -/
def insertByName (s : Service) : List Service → List Service
  | [] => [s]
  | t :: ts => if nameLe s t then s :: t :: ts else t :: insertByName s ts

/-- The sort at the end of `LoadConfig` (`sort.Slice` comparing names),
modelled as an insertion sort; for the valid configurations, whose service
names are distinct, every sorting algorithm produces this result. -/
def sortServicesByName : List Service → List Service
  | [] => []
  | s :: ss => insertByName s (sortServicesByName ss)

/-! ### handler.New: the image index -/

/-- The image index `imageToService` built by `New`: group the services of
the configuration by their image string, in configuration order. -/
def buildImageIndex (services : List Service) : GoMap (List Service) :=
  services.foldl (fun m s => goAppendAt m s.image s) []

/-- The service loop of `New`: extend the index and compile every service,
failing on the first compile error. -/
def newHookLoop (o : Service → IterOrders) :
    List Service → GoMap (List Service) → Option (GoMap (List Service))
  | [], acc => some acc
  | s :: rest, acc =>
    let acc := goAppendAt acc s.image s
    match (s.createContainerOptions (o s)).2 with
    | some _ => none
    | none => newHookLoop o rest acc

/-- `handler.New`: build the index, compile every service eagerly, then
connect to the engine and ping it; `clientOk` and `pingOk` stand for the
outcomes of the two engine calls. -/
def newHook (services : List Service) (o : Service → IterOrders)
    (clientOk pingOk : Bool) : Option (GoMap (List Service)) :=
  match newHookLoop o services [] with
  | none => none
  | some idx => if clientOk then (if pingOk then some idx else none) else none

/-! ### The webhook handler -/

/-- handler.PushData. -/
structure PushData where
  images : List String := []
  pushedAt : Int := 0
  pusher : String := ""
  tag : String := ""
  deriving DecidableEq

/-- handler.Repository. -/
structure Repository where
  commentCount : Int := 0
  dateCreated : Int := 0
  description : String := ""
  dockerfile : String := ""
  fullDescription : String := ""
  isOfficial : Bool := false
  isPrivate : Bool := false
  isTrusted : Bool := false
  name : String := ""
  namespaceName : String := ""
  owner : String := ""
  repoName : String := ""
  repoURL : String := ""
  starCount : Int := 0
  status : String := ""
  deriving DecidableEq

/-- handler.HookRequest, a decoded webhook event. -/
structure HookRequest where
  callbackURL : String := ""
  pushData : PushData := {}
  repository : Repository := {}
  deriving DecidableEq

/-- docker.APIContainers (the fields the handler reads). -/
structure APIContainers where
  id : String := ""
  names : List String := []
  deriving DecidableEq

/-- One call of the Engine Client contract. -/
inductive EngineCall where
  | pull (repository tag : String)
  | list
  | stop (id : String) (timeout : Nat)
  | remove (id : String)
  | create (options : CreateContainerOptions)
  | start (id : String)
  deriving DecidableEq

/-- The behaviour of the container engine during one event: the outcome of
each call, as a function of its arguments.  `Option String` results carry
the error of calls returning only an error; `createResult` returns the
identifier of the created container. -/
structure Engine where
  pullResult : String → String → Option String := fun _ _ => none
  listResult : Except String (List APIContainers) := .ok []
  stopResult : String → Option String := fun _ => none
  removeResult : String → Option String := fun _ => none
  createResult : CreateContainerOptions → Except String String := fun _ => .ok ""
  startResult : String → Option String := fun _ => none

/-- handler.sliceContains. -/
def sliceContains : List String → String → Bool
  | [], _ => false
  | x :: rest, s => if x == s then true else sliceContains rest s

/-- The container list the loop ranges over: the listed containers, or nil
when the list call failed (the handler logs the error and soldiers on). -/
def containersOf (eng : Engine) : List APIContainers :=
  match eng.listResult with
  | .ok cs => cs
  | .error _ => []

/-- The search for an existing container: the identifier of the first
container whose names contain a slash followed by the service name, or the
empty string. -/
def findExistingId (containers : List APIContainers) (name : String) : String :=
  match containers.find? (fun c => sliceContains c.names ("/" ++ name)) with
  | some c => c.id
  | none => ""

/-- One iteration of the per-service loop of `ServeHTTP`: list the
containers (a failure is only logged), stop and remove an existing
container of the service name (failures are only logged; the stop timeout
is 10 seconds), recompile the spec with the error discarded, then create
and start the replacement.  Returns the engine calls made and whether the
iteration completed without aborting. -/
def reconcileService (eng : Engine) (o : Service → IterOrders) (s : Service) :
    List EngineCall × Bool :=
  let containers := containersOf eng
  let id := findExistingId containers s.name
  let teardown := if id ≠ "" then [EngineCall.stop id 10, EngineCall.remove id] else []
  let cOpts := (s.createContainerOptions (o s)).1
  match eng.createResult cOpts with
  | .error _ => (EngineCall.list :: teardown ++ [EngineCall.create cOpts], false)
  | .ok cid =>
    match eng.startResult cid with
    | some _ =>
      (EngineCall.list :: teardown ++ [EngineCall.create cOpts, EngineCall.start cid], false)
    | none =>
      (EngineCall.list :: teardown ++ [EngineCall.create cOpts, EngineCall.start cid], true)

/-- The per-service loop: services in order, stopping at the first
iteration that aborts the event. -/
def reconcileLoop (eng : Engine) (o : Service → IterOrders) :
    List Service → List EngineCall × Bool
  | [] => ([], true)
  | s :: rest =>
    match reconcileService eng o s with
    | (tr, false) => (tr, false)
    | (tr, true) =>
      let r := reconcileLoop eng o rest
      (tr ++ r.1, r.2)

/-- The lookup of `ServeHTTP`: the exact image reference first, then, for
the literal tag latest, the bare repository name. -/
def resolveServices (index : GoMap (List Service)) (repoName tag : String) :
    Option (List Service) :=
  match goLookup index (repoName ++ ":" ++ tag) with
  | some l => some l
  | none => if tag == "latest" then goLookup index repoName else none

/-- The observable outcome of one handled event: the HTTP status written,
the engine calls made in order, and the callback URLs fetched. -/
structure HookResult where
  status : Nat
  calls : List EngineCall
  callbacks : List String
  deriving DecidableEq

/-- `DockerHook.ServeHTTP` after a successful decode of the request body:
resolve the image, pull once, reconcile every matched service, and notify
(the callback is fetched after the response is written; a callback failure
is only logged). -/
def serveHook (eng : Engine) (o : Service → IterOrders) (index : GoMap (List Service))
    (hook : HookRequest) : HookResult :=
  match resolveServices index hook.repository.repoName hook.pushData.tag with
  | none => { status := 200, calls := [], callbacks := [hook.callbackURL] }
  | some found =>
    match eng.pullResult hook.repository.repoName hook.pushData.tag with
    | some _ =>
      { status := 500
        calls := [EngineCall.pull hook.repository.repoName hook.pushData.tag]
        callbacks := [] }
    | none =>
      let r := reconcileLoop eng o found
      if r.2 then
        { status := 200
          calls := EngineCall.pull hook.repository.repoName hook.pushData.tag :: r.1
          callbacks := [hook.callbackURL] }
      else
        { status := 500
          calls := EngineCall.pull hook.repository.repoName hook.pushData.tag :: r.1
          callbacks := [] }

/-! ### Order lemmas for the name sort -/

theorem char_eq_of_toNat_eq {a b : Char} (h : a.toNat = b.toNat) : a = b := by
  have h2 := congrArg Char.ofNat h
  rwa [Char.ofNat_toNat, Char.ofNat_toNat] at h2

theorem charLt_asymm {a b : Char} (h : charLt a b = true) : charLt b a = false := by
  simp only [charLt, decide_eq_true_eq] at h
  simp only [charLt, decide_eq_false_iff_not]
  omega

theorem charLt_trans {a b c : Char} (h1 : charLt a b = true) (h2 : charLt b c = true) :
    charLt a c = true := by
  simp only [charLt, decide_eq_true_eq] at h1 h2 ⊢
  omega

theorem charLt_eq {a b : Char} (h1 : charLt a b = false) (h2 : charLt b a = false) : a = b := by
  simp only [charLt, decide_eq_false_iff_not, Nat.not_lt] at h1 h2
  exact char_eq_of_toNat_eq (Nat.le_antisymm h2 h1)

theorem lexLt_asymm : ∀ (a b : List Char), lexLt a b = true → lexLt b a = false := by
  intro a
  induction a with
  | nil =>
    intro b h
    cases b with
    | nil => simp [lexLt] at h
    | cons y ys => simp [lexLt]
  | cons x xs ih =>
    intro b h
    cases b with
    | nil => simp [lexLt] at h
    | cons y ys =>
      simp only [lexLt] at h ⊢
      cases hxy : charLt x y with
      | true => simp [charLt_asymm hxy, hxy]
      | false =>
        cases hyx : charLt y x with
        | true => simp [hxy, hyx] at h
        | false =>
          simp only [hxy, hyx, if_false] at h
          simp [hxy, hyx, ih ys h]

theorem lexLt_trans : ∀ (a b c : List Char),
    lexLt a b = true → lexLt b c = true → lexLt a c = true := by
  intro a
  induction a with
  | nil =>
    intro b c h1 h2
    cases b with
    | nil => simp [lexLt] at h1
    | cons y ys =>
      cases c with
      | nil => simp [lexLt] at h2
      | cons z zs => simp [lexLt]
  | cons x xs ih =>
    intro b c h1 h2
    cases b with
    | nil => simp [lexLt] at h1
    | cons y ys =>
      cases c with
      | nil => simp [lexLt] at h2
      | cons z zs =>
        simp only [lexLt] at h1 h2 ⊢
        cases hxy : charLt x y with
        | true =>
          cases hyz : charLt y z with
          | true => simp [charLt_trans hxy hyz]
          | false =>
            cases hzy : charLt z y with
            | true => simp [hyz, hzy] at h2
            | false =>
              have hyzeq : y = z := charLt_eq hyz hzy
              subst hyzeq
              simp [hxy]
        | false =>
          cases hyx : charLt y x with
          | true => simp [hxy, hyx] at h1
          | false =>
            have hxyeq : x = y := charLt_eq hxy hyx
            subst hxyeq
            simp only [hxy, if_false] at h1
            cases hxz : charLt x z with
            | true => simp [hxz]
            | false =>
              cases hzx : charLt z x with
              | true => simp [hxz, hzx] at h2
              | false =>
                simp only [hxz, hzx, if_false] at h2 ⊢
                exact ih ys zs h1 h2

theorem lexLt_eq : ∀ (a b : List Char), lexLt a b = false → lexLt b a = false → a = b := by
  intro a
  induction a with
  | nil =>
    intro b h1 _
    cases b with
    | nil => rfl
    | cons y ys => simp [lexLt] at h1
  | cons x xs ih =>
    intro b h1 h2
    cases b with
    | nil => simp [lexLt] at h2
    | cons y ys =>
      simp only [lexLt] at h1 h2
      cases hxy : charLt x y with
      | true => simp [hxy] at h1
      | false =>
        cases hyx : charLt y x with
        | true => simp [hyx] at h2
        | false =>
          have hc : x = y := charLt_eq hxy hyx
          simp only [hxy, hyx, if_false] at h1 h2
          rw [hc, ih ys h1 h2]

theorem nameLe_total (a b : Service) : nameLe a b = true ∨ nameLe b a = true := by
  unfold nameLe strLt
  cases h : lexLt b.name.toList a.name.toList with
  | false => left; rfl
  | true =>
    right
    rw [lexLt_asymm _ _ h]
    rfl

theorem nameLe_trans {a b c : Service} (h1 : nameLe a b = true) (h2 : nameLe b c = true) :
    nameLe a c = true := by
  unfold nameLe strLt at h1 h2 ⊢
  rw [Bool.not_eq_true'] at h1 h2 ⊢
  by_contra hc
  rw [Bool.not_eq_false] at hc
  cases hab : lexLt a.name.toList b.name.toList with
  | true => exact absurd (lexLt_trans _ _ _ hc hab) (by rw [h2]; simp)
  | false =>
    have he := lexLt_eq _ _ hab h1
    rw [he] at hc
    rw [hc] at h2
    exact Bool.true_eq_false.mp h2

theorem mem_insertByName {x s : Service} :
    ∀ {l : List Service}, x ∈ insertByName s l ↔ x = s ∨ x ∈ l := by
  intro l
  induction l with
  | nil => simp [insertByName]
  | cons t ts ih =>
    simp only [insertByName]
    cases h : nameLe s t with
    | true =>
      rw [if_pos rfl]
      simp only [List.mem_cons]
    | false =>
      rw [if_neg (by simp)]
      rw [List.mem_cons, ih, List.mem_cons]
      tauto

theorem pairwise_insertByName {l : List Service} (s : Service)
    (h : l.Pairwise (fun a b => nameLe a b = true)) :
    (insertByName s l).Pairwise (fun a b => nameLe a b = true) := by
  induction l with
  | nil => simp [insertByName]
  | cons t ts ih =>
    rw [List.pairwise_cons] at h
    obtain ⟨ht, hts⟩ := h
    simp only [insertByName]
    cases hst : nameLe s t with
    | true =>
      rw [if_pos rfl]
      refine List.Pairwise.cons ?_ (List.Pairwise.cons ht hts)
      intro x hx
      rcases List.mem_cons.mp hx with rfl | hx
      · exact hst
      · exact nameLe_trans hst (ht x hx)
    | false =>
      rw [if_neg (by simp)]
      refine List.Pairwise.cons ?_ (ih hts)
      intro x hx
      rcases mem_insertByName.mp hx with rfl | hx
      · rcases nameLe_total t x with hgood | hbad
        · exact hgood
        · rw [hst] at hbad
          cases hbad
      · exact ht x hx

theorem pairwise_sortServicesByName (l : List Service) :
    (sortServicesByName l).Pairwise (fun a b => nameLe a b = true) := by
  induction l with
  | nil => exact List.Pairwise.nil
  | cons s ss ih => exact pairwise_insertByName s ih

/-! ### Index lemmas -/

theorem goLookup_goAppendAt_self {β : Type} (m : GoMap (List β)) (k : String) (v : β) :
    goLookup (goAppendAt m k v) k = some ((goLookup m k).getD [] ++ [v]) := by
  induction m with
  | nil => simp [goAppendAt, goLookup]
  | cons p rest ih =>
    obtain ⟨k2, l⟩ := p
    by_cases h : k2 = k
    · subst h
      simp [goAppendAt, goLookup]
    · simp [goAppendAt, goLookup, h, ih]

theorem goLookup_goAppendAt_ne {β : Type} (m : GoMap (List β)) {k k2 : String} (v : β)
    (h : k ≠ k2) : goLookup (goAppendAt m k v) k2 = goLookup m k2 := by
  induction m with
  | nil => simp [goAppendAt, goLookup, h]
  | cons p rest ih =>
    obtain ⟨k3, l⟩ := p
    by_cases h3 : k3 = k
    · subst h3
      simp [goAppendAt, goLookup, h]
    · by_cases h32 : k3 = k2
      · subst h32
        simp [goAppendAt, goLookup, h3]
      · simp [goAppendAt, goLookup, h3, h32, ih]

theorem goLookup_buildIndex_foldl (l : List Service) :
    ∀ (m : GoMap (List Service)) (k : String),
      goLookup (l.foldl (fun m s => goAppendAt m s.image s) m) k =
        match goLookup m k with
        | some v => some (v ++ l.filter (fun s => s.image == k))
        | none =>
          if l.filter (fun s => s.image == k) = [] then none
          else some (l.filter (fun s => s.image == k)) := by
  induction l with
  | nil =>
    intro m k
    cases hm : goLookup m k <;> simp [hm]
  | cons s rest ih =>
    intro m k
    rw [List.foldl_cons, ih (goAppendAt m s.image s) k]
    by_cases h : s.image = k
    · subst h
      rw [goLookup_goAppendAt_self]
      cases hm : goLookup m s.image with
      | none => simp [hm]
      | some v => simp [hm]
    · rw [goLookup_goAppendAt_ne _ _ h]
      have hb : (s.image == k) = false := by simp [h]
      simp only [List.filter_cons, hb]
      simp

theorem goLookup_buildImageIndex (l : List Service) (k : String) :
    goLookup (buildImageIndex l) k =
      if l.filter (fun s => s.image == k) = [] then none
      else some (l.filter (fun s => s.image == k)) := by
  unfold buildImageIndex
  rw [goLookup_buildIndex_foldl l [] k]
  simp [goLookup]

theorem goLookup_buildImageIndex_eq_some {l : List Service} {k : String}
    {found : List Service} (h : goLookup (buildImageIndex l) k = some found) :
    found = l.filter (fun s => s.image == k) := by
  rw [goLookup_buildImageIndex] at h
  by_cases he : l.filter (fun s => s.image == k) = []
  · rw [if_pos he] at h
    cases h
  · rw [if_neg he] at h
    exact (Option.some.inj h).symm

theorem goLookup_buildImageIndex_of_mem {l : List Service} {k : String} {s : Service}
    (hs : s ∈ l) (him : s.image = k) :
    goLookup (buildImageIndex l) k = some (l.filter (fun t => t.image == k)) := by
  rw [goLookup_buildImageIndex]
  rw [if_neg]
  intro he
  have : s ∈ l.filter (fun t => t.image == k) := by
    rw [List.mem_filter]
    exact ⟨hs, by simp [him]⟩
  rw [he] at this
  cases this

/-! ### Projection lemmas for the compiler branches

For every branch of the compiler and every one of the four fields derived
from a Go map iteration or from the device loop, the branches that do not
write the field leave it unchanged. -/

@[simp] theorem withNetworks_env (s : Service) (n : GoMap ServiceNetworkConfig)
    (c : CreateContainerOptions) : (withNetworks s n c).config.env = c.config.env := by
  unfold withNetworks; split <;> rfl

@[simp] theorem withNetworks_ulimits (s : Service) (n : GoMap ServiceNetworkConfig)
    (c : CreateContainerOptions) :
    (withNetworks s n c).hostConfig.ulimits = c.hostConfig.ulimits := by
  unfold withNetworks; split <;> rfl

@[simp] theorem withNetworks_devices (s : Service) (n : GoMap ServiceNetworkConfig)
    (c : CreateContainerOptions) :
    (withNetworks s n c).hostConfig.devices = c.hostConfig.devices := by
  unfold withNetworks; split <;> rfl

@[simp] theorem withTmpfs_env (s : Service) (c : CreateContainerOptions) :
    (withTmpfs s c).config.env = c.config.env := by
  unfold withTmpfs; split <;> rfl

@[simp] theorem withTmpfs_ulimits (s : Service) (c : CreateContainerOptions) :
    (withTmpfs s c).hostConfig.ulimits = c.hostConfig.ulimits := by
  unfold withTmpfs; split <;> rfl

@[simp] theorem withTmpfs_devices (s : Service) (c : CreateContainerOptions) :
    (withTmpfs s c).hostConfig.devices = c.hostConfig.devices := by
  unfold withTmpfs; split <;> rfl

@[simp] theorem withTmpfs_net (s : Service) (c : CreateContainerOptions) :
    (withTmpfs s c).networkingConfig = c.networkingConfig := by
  unfold withTmpfs; split <;> rfl

@[simp] theorem withUlimits_env (s : Service) (u : GoMap UlimitsConfig)
    (c : CreateContainerOptions) : (withUlimits s u c).config.env = c.config.env := by
  unfold withUlimits; split <;> rfl

@[simp] theorem withUlimits_devices (s : Service) (u : GoMap UlimitsConfig)
    (c : CreateContainerOptions) :
    (withUlimits s u c).hostConfig.devices = c.hostConfig.devices := by
  unfold withUlimits; split <;> rfl

@[simp] theorem withUlimits_net (s : Service) (u : GoMap UlimitsConfig)
    (c : CreateContainerOptions) :
    (withUlimits s u c).networkingConfig = c.networkingConfig := by
  unfold withUlimits; split <;> rfl

@[simp] theorem withDevices_env (s : Service) (ds : List Device)
    (c : CreateContainerOptions) : (withDevices s ds c).config.env = c.config.env := by
  unfold withDevices; split <;> rfl

@[simp] theorem withDevices_ulimits (s : Service) (ds : List Device)
    (c : CreateContainerOptions) :
    (withDevices s ds c).hostConfig.ulimits = c.hostConfig.ulimits := by
  unfold withDevices; split <;> rfl

@[simp] theorem withDevices_net (s : Service) (ds : List Device)
    (c : CreateContainerOptions) :
    (withDevices s ds c).networkingConfig = c.networkingConfig := by
  unfold withDevices; split <;> rfl

@[simp] theorem withLogging_env (s : Service) (c : CreateContainerOptions) :
    (withLogging s c).config.env = c.config.env := by
  unfold withLogging; split <;> rfl

@[simp] theorem withLogging_ulimits (s : Service) (c : CreateContainerOptions) :
    (withLogging s c).hostConfig.ulimits = c.hostConfig.ulimits := by
  unfold withLogging; split <;> rfl

@[simp] theorem withLogging_devices (s : Service) (c : CreateContainerOptions) :
    (withLogging s c).hostConfig.devices = c.hostConfig.devices := by
  unfold withLogging; split <;> rfl

@[simp] theorem withLogging_net (s : Service) (c : CreateContainerOptions) :
    (withLogging s c).networkingConfig = c.networkingConfig := by
  unfold withLogging; split <;> rfl

@[simp] theorem withRestart_env (s : Service) (c : CreateContainerOptions) :
    (withRestart s c).config.env = c.config.env := by
  unfold withRestart; split <;> rfl

@[simp] theorem withRestart_ulimits (s : Service) (c : CreateContainerOptions) :
    (withRestart s c).hostConfig.ulimits = c.hostConfig.ulimits := by
  unfold withRestart; split <;> rfl

@[simp] theorem withRestart_devices (s : Service) (c : CreateContainerOptions) :
    (withRestart s c).hostConfig.devices = c.hostConfig.devices := by
  unfold withRestart; split <;> rfl

@[simp] theorem withRestart_net (s : Service) (c : CreateContainerOptions) :
    (withRestart s c).networkingConfig = c.networkingConfig := by
  unfold withRestart; split <;> rfl

@[simp] theorem withVolumes_env (s : Service) (c : CreateContainerOptions) :
    (withVolumes s c).config.env = c.config.env := by
  unfold withVolumes; split <;> rfl

@[simp] theorem withVolumes_ulimits (s : Service) (c : CreateContainerOptions) :
    (withVolumes s c).hostConfig.ulimits = c.hostConfig.ulimits := by
  unfold withVolumes; split <;> rfl

@[simp] theorem withVolumes_devices (s : Service) (c : CreateContainerOptions) :
    (withVolumes s c).hostConfig.devices = c.hostConfig.devices := by
  unfold withVolumes; split <;> rfl

@[simp] theorem withVolumes_net (s : Service) (c : CreateContainerOptions) :
    (withVolumes s c).networkingConfig = c.networkingConfig := by
  unfold withVolumes; split <;> rfl

@[simp] theorem withHealthCheck_env (s : Service) (c : CreateContainerOptions) :
    (withHealthCheck s c).config.env = c.config.env := by
  unfold withHealthCheck; split <;> (try split) <;> rfl

@[simp] theorem withHealthCheck_ulimits (s : Service) (c : CreateContainerOptions) :
    (withHealthCheck s c).hostConfig.ulimits = c.hostConfig.ulimits := by
  unfold withHealthCheck; split <;> (try split) <;> rfl

@[simp] theorem withHealthCheck_devices (s : Service) (c : CreateContainerOptions) :
    (withHealthCheck s c).hostConfig.devices = c.hostConfig.devices := by
  unfold withHealthCheck; split <;> (try split) <;> rfl

@[simp] theorem withHealthCheck_net (s : Service) (c : CreateContainerOptions) :
    (withHealthCheck s c).networkingConfig = c.networkingConfig := by
  unfold withHealthCheck; split <;> (try split) <;> rfl

@[simp] theorem withEnvironment_ulimits (s : Service) (e : GoMap (Option String))
    (c : CreateContainerOptions) :
    (withEnvironment s e c).hostConfig.ulimits = c.hostConfig.ulimits := by
  unfold withEnvironment; split <;> rfl

@[simp] theorem withEnvironment_devices (s : Service) (e : GoMap (Option String))
    (c : CreateContainerOptions) :
    (withEnvironment s e c).hostConfig.devices = c.hostConfig.devices := by
  unfold withEnvironment; split <;> rfl

@[simp] theorem withEnvironment_net (s : Service) (e : GoMap (Option String))
    (c : CreateContainerOptions) :
    (withEnvironment s e c).networkingConfig = c.networkingConfig := by
  unfold withEnvironment; split <;> rfl

@[simp] theorem withStopGracePeriod_env (s : Service) (c : CreateContainerOptions) :
    (withStopGracePeriod s c).config.env = c.config.env := by
  unfold withStopGracePeriod; split <;> rfl

@[simp] theorem withStopGracePeriod_ulimits (s : Service) (c : CreateContainerOptions) :
    (withStopGracePeriod s c).hostConfig.ulimits = c.hostConfig.ulimits := by
  unfold withStopGracePeriod; split <;> rfl

@[simp] theorem withStopGracePeriod_devices (s : Service) (c : CreateContainerOptions) :
    (withStopGracePeriod s c).hostConfig.devices = c.hostConfig.devices := by
  unfold withStopGracePeriod; split <;> rfl

@[simp] theorem withStopGracePeriod_net (s : Service) (c : CreateContainerOptions) :
    (withStopGracePeriod s c).networkingConfig = c.networkingConfig := by
  unfold withStopGracePeriod; split <;> rfl

@[simp] theorem foldl_portStep_env :
    ∀ (ports : List ServicePortConfig) (c : CreateContainerOptions),
      (ports.foldl portStep c).config.env = c.config.env := by
  intro ports
  induction ports with
  | nil => intro c; rfl
  | cons p ps ih => intro c; rw [List.foldl_cons, ih]; rfl

@[simp] theorem foldl_portStep_ulimits :
    ∀ (ports : List ServicePortConfig) (c : CreateContainerOptions),
      (ports.foldl portStep c).hostConfig.ulimits = c.hostConfig.ulimits := by
  intro ports
  induction ports with
  | nil => intro c; rfl
  | cons p ps ih => intro c; rw [List.foldl_cons, ih]; rfl

@[simp] theorem foldl_portStep_devices :
    ∀ (ports : List ServicePortConfig) (c : CreateContainerOptions),
      (ports.foldl portStep c).hostConfig.devices = c.hostConfig.devices := by
  intro ports
  induction ports with
  | nil => intro c; rfl
  | cons p ps ih => intro c; rw [List.foldl_cons, ih]; rfl

@[simp] theorem foldl_portStep_net :
    ∀ (ports : List ServicePortConfig) (c : CreateContainerOptions),
      (ports.foldl portStep c).networkingConfig = c.networkingConfig := by
  intro ports
  induction ports with
  | nil => intro c; rfl
  | cons p ps ih => intro c; rw [List.foldl_cons, ih]; rfl

@[simp] theorem withPorts_env (s : Service) (c : CreateContainerOptions) :
    (withPorts s c).config.env = c.config.env := by
  unfold withPorts; split
  · rw [foldl_portStep_env]
  · rfl

@[simp] theorem withPorts_ulimits (s : Service) (c : CreateContainerOptions) :
    (withPorts s c).hostConfig.ulimits = c.hostConfig.ulimits := by
  unfold withPorts; split
  · rw [foldl_portStep_ulimits]
  · rfl

@[simp] theorem withPorts_devices (s : Service) (c : CreateContainerOptions) :
    (withPorts s c).hostConfig.devices = c.hostConfig.devices := by
  unfold withPorts; split
  · rw [foldl_portStep_devices]
  · rfl

@[simp] theorem withPorts_net (s : Service) (c : CreateContainerOptions) :
    (withPorts s c).networkingConfig = c.networkingConfig := by
  unfold withPorts; split
  · rw [foldl_portStep_net]
  · rfl

@[simp] theorem withExpose_env (s : Service) (c : CreateContainerOptions) :
    (withExpose s c).config.env = c.config.env := by
  unfold withExpose; split <;> rfl

@[simp] theorem withExpose_ulimits (s : Service) (c : CreateContainerOptions) :
    (withExpose s c).hostConfig.ulimits = c.hostConfig.ulimits := by
  unfold withExpose; split <;> rfl

@[simp] theorem withExpose_devices (s : Service) (c : CreateContainerOptions) :
    (withExpose s c).hostConfig.devices = c.hostConfig.devices := by
  unfold withExpose; split <;> rfl

@[simp] theorem withExpose_net (s : Service) (c : CreateContainerOptions) :
    (withExpose s c).networkingConfig = c.networkingConfig := by
  unfold withExpose; split <;> rfl

@[simp] theorem withLimits_env (s : Service) (c : CreateContainerOptions) :
    (withLimits s c).config.env = c.config.env := by
  unfold withLimits; split <;> rfl

@[simp] theorem withLimits_ulimits (s : Service) (c : CreateContainerOptions) :
    (withLimits s c).hostConfig.ulimits = c.hostConfig.ulimits := by
  unfold withLimits; split <;> rfl

@[simp] theorem withLimits_devices (s : Service) (c : CreateContainerOptions) :
    (withLimits s c).hostConfig.devices = c.hostConfig.devices := by
  unfold withLimits; split <;> rfl

@[simp] theorem withLimits_net (s : Service) (c : CreateContainerOptions) :
    (withLimits s c).networkingConfig = c.networkingConfig := by
  unfold withLimits; split <;> rfl

@[simp] theorem withReservations_env (s : Service) (c : CreateContainerOptions) :
    (withReservations s c).config.env = c.config.env := by
  unfold withReservations; split <;> rfl

@[simp] theorem withReservations_ulimits (s : Service) (c : CreateContainerOptions) :
    (withReservations s c).hostConfig.ulimits = c.hostConfig.ulimits := by
  unfold withReservations; split <;> rfl

@[simp] theorem withReservations_devices (s : Service) (c : CreateContainerOptions) :
    (withReservations s c).hostConfig.devices = c.hostConfig.devices := by
  unfold withReservations; split <;> rfl

@[simp] theorem withReservations_net (s : Service) (c : CreateContainerOptions) :
    (withReservations s c).networkingConfig = c.networkingConfig := by
  unfold withReservations; split <;> rfl

/-! ### Field values of a compiled spec -/

theorem compileWith_snd (s : Service) (e : GoMap (Option String))
    (n : GoMap ServiceNetworkConfig) (u : GoMap UlimitsConfig) :
    (compileWith s e n u).2 = (devicesOf s.devices).2 := by
  cases hd : (devicesOf s.devices).2 with
  | some er => simp [compileWith, hd]
  | none => simp [compileWith, hd]

theorem createContainerOptions_snd (s : Service) (o : IterOrders) :
    (s.createContainerOptions o).2 = (devicesOf s.devices).2 :=
  compileWith_snd s _ _ _

theorem compileWith_env (s : Service) (e : GoMap (Option String))
    (n : GoMap ServiceNetworkConfig) (u : GoMap UlimitsConfig) :
    (compileWith s e n u).1.config.env =
      match (devicesOf s.devices).2 with
      | some _ => []
      | none => if 0 < s.environment.length then e.map envEntryString else [] := by
  cases hd : (devicesOf s.devices).2 with
  | some er =>
    simp only [compileWith, hd]
    simp [baseOptions]
  | none =>
    simp only [compileWith, hd]
    simp only [withReservations_env, withLimits_env, withExpose_env, withPorts_env,
      withStopGracePeriod_env, withDevices_env, withUlimits_env, withTmpfs_env,
      withNetworks_env]
    unfold withEnvironment
    split
    · simp [baseOptions]
    · simp [baseOptions]

theorem compileWith_ulimits (s : Service) (e : GoMap (Option String))
    (n : GoMap ServiceNetworkConfig) (u : GoMap UlimitsConfig) :
    (compileWith s e n u).1.hostConfig.ulimits =
      if 0 < s.ulimits.length then
        u.map (fun p => { name := p.1, soft := p.2.soft, hard := p.2.hard }) else [] := by
  cases hd : (devicesOf s.devices).2 with
  | some er =>
    simp only [compileWith, hd]
    simp only [withDevices_ulimits]
    unfold withUlimits
    split
    · simp [baseOptions]
    · simp [baseOptions]
  | none =>
    simp only [compileWith, hd]
    simp only [withReservations_ulimits, withLimits_ulimits, withExpose_ulimits,
      withPorts_ulimits, withStopGracePeriod_ulimits, withEnvironment_ulimits,
      withHealthCheck_ulimits, withVolumes_ulimits, withRestart_ulimits,
      withLogging_ulimits, withDevices_ulimits]
    unfold withUlimits
    split
    · simp [baseOptions]
    · simp [baseOptions]

theorem compileWith_networkingConfig (s : Service) (e : GoMap (Option String))
    (n : GoMap ServiceNetworkConfig) (u : GoMap UlimitsConfig) :
    (compileWith s e n u).1.networkingConfig =
      if 0 < s.networks.length then
        some
          ({ endpointsConfig := n.map (fun p =>
              (p.1,
                { aliases := p.2.aliases
                  ipAddress := p.2.ipv4Address
                  globalIPv6Address := p.2.ipv6Address })) })
      else none := by
  cases hd : (devicesOf s.devices).2 with
  | some er =>
    simp only [compileWith, hd]
    simp only [withDevices_net, withUlimits_net, withTmpfs_net]
    unfold withNetworks
    split
    · rfl
    · simp [baseOptions]
  | none =>
    simp only [compileWith, hd]
    simp only [withReservations_net, withLimits_net, withExpose_net, withPorts_net,
      withStopGracePeriod_net, withEnvironment_net, withHealthCheck_net, withVolumes_net,
      withRestart_net, withLogging_net, withDevices_net, withUlimits_net, withTmpfs_net]
    unfold withNetworks
    split
    · rfl
    · simp [baseOptions]

theorem compileWith_devices (s : Service) (e : GoMap (Option String))
    (n : GoMap ServiceNetworkConfig) (u : GoMap UlimitsConfig) :
    (compileWith s e n u).1.hostConfig.devices =
      if 0 < s.devices.length then (devicesOf s.devices).1 else [] := by
  cases hd : (devicesOf s.devices).2 with
  | some er =>
    simp only [compileWith, hd]
    unfold withDevices
    split
    · rfl
    · simp [baseOptions]
  | none =>
    simp only [compileWith, hd]
    simp only [withReservations_devices, withLimits_devices, withExpose_devices,
      withPorts_devices, withStopGracePeriod_devices, withEnvironment_devices,
      withHealthCheck_devices, withVolumes_devices, withRestart_devices,
      withLogging_devices]
    unfold withDevices
    split
    · rfl
    · simp [baseOptions]

/-! ### The device loop -/

/-- The device record of one well-formed device declaration. -/
def deviceOf (d : String) : Device :=
  match goSplit ':' d with
  | [host, container] => { pathOnHost := host, pathInContainer := container }
  | _ => {}

theorem devicesOf_none_iff : ∀ (ds : List String),
    (devicesOf ds).2 = none ↔ ∀ d ∈ ds, (goSplit ':' d).length = 2 := by
  intro ds
  induction ds with
  | nil => simp [devicesOf]
  | cons d rest ih =>
    rcases hsp : goSplit ':' d with _ | ⟨a, _ | ⟨b, _ | ⟨c2, t⟩⟩⟩
    · simp [devicesOf, hsp]
    · simp [devicesOf, hsp]
    · simp [devicesOf, hsp, ih]
    · simp [devicesOf, hsp]

theorem devicesOf_fst_of_none : ∀ (ds : List String), (devicesOf ds).2 = none →
    (devicesOf ds).1 = ds.map deviceOf := by
  intro ds
  induction ds with
  | nil => intro _; rfl
  | cons d rest ih =>
    intro h
    rcases hsp : goSplit ':' d with _ | ⟨a, _ | ⟨b, _ | ⟨c2, t⟩⟩⟩
    · simp [devicesOf, hsp] at h
    · simp [devicesOf, hsp] at h
    · simp only [devicesOf, hsp] at h ⊢
      simp only [List.map_cons, deviceOf, hsp]
      exact congrArg _ (ih h)
    · simp [devicesOf, hsp] at h

/-! ### Determinism up to map iteration order -/

/-- Erase the three collections a spec derives from Go map iterations; the
remaining fields of the spec are untouched. -/
def scrubMapDerived (c : CreateContainerOptions) : CreateContainerOptions :=
  { c with config.env := [], hostConfig.ulimits := [], networkingConfig := none }

/-- The endpoint map of a spec, empty when no networking config is present. -/
def endpointsOf (c : CreateContainerOptions) : GoMap EndpointConfig :=
  match c.networkingConfig with
  | some n => n.endpointsConfig
  | none => []

theorem scrub_withNetworks (s : Service) (n : GoMap ServiceNetworkConfig)
    (c : CreateContainerOptions) :
    scrubMapDerived (withNetworks s n c) = scrubMapDerived c := by
  unfold withNetworks scrubMapDerived; split <;> rfl

theorem scrub_withUlimits (s : Service) (u : GoMap UlimitsConfig)
    (c : CreateContainerOptions) :
    scrubMapDerived (withUlimits s u c) = scrubMapDerived c := by
  unfold withUlimits scrubMapDerived; split <;> rfl

theorem scrub_withEnvironment (s : Service) (e : GoMap (Option String))
    (c : CreateContainerOptions) :
    scrubMapDerived (withEnvironment s e c) = scrubMapDerived c := by
  unfold withEnvironment scrubMapDerived; split <;> rfl

theorem scrub_withTmpfs (s : Service) (c : CreateContainerOptions) :
    scrubMapDerived (withTmpfs s c) = withTmpfs s (scrubMapDerived c) := by
  unfold withTmpfs scrubMapDerived; split <;> rfl

theorem scrub_withDevices (s : Service) (ds : List Device) (c : CreateContainerOptions) :
    scrubMapDerived (withDevices s ds c) = withDevices s ds (scrubMapDerived c) := by
  unfold withDevices scrubMapDerived; split <;> rfl

theorem scrub_withLogging (s : Service) (c : CreateContainerOptions) :
    scrubMapDerived (withLogging s c) = withLogging s (scrubMapDerived c) := by
  unfold withLogging scrubMapDerived; split <;> rfl

theorem scrub_withRestart (s : Service) (c : CreateContainerOptions) :
    scrubMapDerived (withRestart s c) = withRestart s (scrubMapDerived c) := by
  unfold withRestart scrubMapDerived; split <;> rfl

theorem scrub_withVolumes (s : Service) (c : CreateContainerOptions) :
    scrubMapDerived (withVolumes s c) = withVolumes s (scrubMapDerived c) := by
  unfold withVolumes scrubMapDerived; split <;> rfl

theorem scrub_withHealthCheck (s : Service) (c : CreateContainerOptions) :
    scrubMapDerived (withHealthCheck s c) = withHealthCheck s (scrubMapDerived c) := by
  unfold withHealthCheck scrubMapDerived; split <;> (try split) <;> rfl

theorem scrub_withStopGracePeriod (s : Service) (c : CreateContainerOptions) :
    scrubMapDerived (withStopGracePeriod s c) = withStopGracePeriod s (scrubMapDerived c) := by
  unfold withStopGracePeriod scrubMapDerived; split <;> rfl

theorem scrub_portStep (c : CreateContainerOptions) (p : ServicePortConfig) :
    scrubMapDerived (portStep c p) = portStep (scrubMapDerived c) p := rfl

theorem scrub_foldl_portStep :
    ∀ (ports : List ServicePortConfig) (c : CreateContainerOptions),
      scrubMapDerived (ports.foldl portStep c) = ports.foldl portStep (scrubMapDerived c) := by
  intro ports
  induction ports with
  | nil => intro c; rfl
  | cons p ps ih =>
    intro c
    rw [List.foldl_cons, List.foldl_cons, ih, scrub_portStep]

theorem scrub_withPorts (s : Service) (c : CreateContainerOptions) :
    scrubMapDerived (withPorts s c) = withPorts s (scrubMapDerived c) := by
  unfold withPorts
  split
  · rw [scrub_foldl_portStep]
    rfl
  · rfl

theorem scrub_withExpose (s : Service) (c : CreateContainerOptions) :
    scrubMapDerived (withExpose s c) = withExpose s (scrubMapDerived c) := by
  unfold withExpose scrubMapDerived; split <;> rfl

theorem scrub_withLimits (s : Service) (c : CreateContainerOptions) :
    scrubMapDerived (withLimits s c) = withLimits s (scrubMapDerived c) := by
  unfold withLimits scrubMapDerived; split <;> rfl

theorem scrub_withReservations (s : Service) (c : CreateContainerOptions) :
    scrubMapDerived (withReservations s c) = withReservations s (scrubMapDerived c) := by
  unfold withReservations scrubMapDerived; split <;> rfl

/-- Outside the three map-derived collections, the compiled spec does not
depend on the entries the map iterations visit or their order at all. -/
theorem scrub_compileWith (s : Service) (e1 e2 : GoMap (Option String))
    (n1 n2 : GoMap ServiceNetworkConfig) (u1 u2 : GoMap UlimitsConfig) :
    scrubMapDerived (compileWith s e1 n1 u1).1 = scrubMapDerived (compileWith s e2 n2 u2).1 := by
  cases hd : (devicesOf s.devices).2 with
  | some er =>
    simp only [compileWith, hd]
    rw [scrub_withDevices, scrub_withDevices, scrub_withUlimits, scrub_withUlimits,
      scrub_withTmpfs, scrub_withTmpfs, scrub_withNetworks, scrub_withNetworks]
  | none =>
    simp only [compileWith, hd]
    rw [scrub_withReservations, scrub_withReservations, scrub_withLimits, scrub_withLimits,
      scrub_withExpose, scrub_withExpose, scrub_withPorts, scrub_withPorts,
      scrub_withStopGracePeriod, scrub_withStopGracePeriod,
      scrub_withEnvironment, scrub_withEnvironment,
      scrub_withHealthCheck, scrub_withHealthCheck, scrub_withVolumes, scrub_withVolumes,
      scrub_withRestart, scrub_withRestart, scrub_withLogging, scrub_withLogging,
      scrub_withDevices, scrub_withDevices, scrub_withUlimits, scrub_withUlimits,
      scrub_withTmpfs, scrub_withTmpfs, scrub_withNetworks, scrub_withNetworks]

theorem iterGoMap_perm {β : Type} (m : GoMap β) {o1 o2 : List String}
    (h : o1.Perm o2) : (iterGoMap m o1).Perm (iterGoMap m o2) :=
  h.filterMap _

/-! ### Reconciliation lemmas -/

/-- A service whose create and start calls succeed under the given engine. -/
def createStartOk (eng : Engine) (o : Service → IterOrders) (s : Service) : Prop :=
  ∃ cid, eng.createResult (s.createContainerOptions (o s)).1 = .ok cid ∧
    eng.startResult cid = none

theorem reconcileService_snd_iff (eng : Engine) (o : Service → IterOrders) (s : Service) :
    (reconcileService eng o s).2 = true ↔ createStartOk eng o s := by
  unfold reconcileService createStartOk
  cases hc : eng.createResult (s.createContainerOptions (o s)).1 with
  | error e => simp [hc]
  | ok cid =>
    cases hs : eng.startResult cid with
    | some m => simp [hc, hs]
    | none => simp [hc, hs]

theorem reconcileLoop_append (eng : Engine) (o : Service → IterOrders) :
    ∀ (l1 rest : List Service),
      (∀ t ∈ l1, (reconcileService eng o t).2 = true) →
      reconcileLoop eng o (l1 ++ rest) =
        ((l1.map (fun t => (reconcileService eng o t).1)).flatten ++
            (reconcileLoop eng o rest).1,
          (reconcileLoop eng o rest).2) := by
  intro l1
  induction l1 with
  | nil => intro rest h; simp
  | cons t ts ih =>
    intro rest h
    have ht := h t (by simp)
    cases hrt : reconcileService eng o t with
    | mk tr ok =>
      rw [hrt] at ht
      simp only at ht
      subst ht
      rw [List.cons_append]
      simp only [reconcileLoop, hrt]
      rw [ih rest (fun t2 ht2 => h t2 (List.mem_cons_of_mem _ ht2))]
      simp [hrt, List.append_assoc]

theorem reconcileLoop_all_ok (eng : Engine) (o : Service → IterOrders) (l : List Service)
    (h : ∀ t ∈ l, (reconcileService eng o t).2 = true) :
    reconcileLoop eng o l =
      ((l.map (fun t => (reconcileService eng o t).1)).flatten, true) := by
  have h2 := reconcileLoop_append eng o l [] h
  simpa [reconcileLoop] using h2

theorem reconcileLoop_first_fail (eng : Engine) (o : Service → IterOrders)
    (l1 : List Service) (s : Service) (l2 : List Service)
    (h1 : ∀ t ∈ l1, (reconcileService eng o t).2 = true)
    (h2 : (reconcileService eng o s).2 = false) :
    reconcileLoop eng o (l1 ++ s :: l2) =
      ((l1.map (fun t => (reconcileService eng o t).1)).flatten ++
          (reconcileService eng o s).1,
        false) := by
  rw [reconcileLoop_append eng o l1 (s :: l2) h1]
  cases hrs : reconcileService eng o s with
  | mk tr ok =>
    rw [hrs] at h2
    simp only at h2
    subst h2
    simp [reconcileLoop, hrs]

theorem create_mem_reconcileService (eng : Engine) (o : Service → IterOrders) (s : Service) :
    EngineCall.create (s.createContainerOptions (o s)).1 ∈ (reconcileService eng o s).1 := by
  unfold reconcileService
  cases hc : eng.createResult (s.createContainerOptions (o s)).1 with
  | error e => simp [hc]
  | ok cid =>
    cases hs : eng.startResult cid with
    | some m => simp [hc, hs]
    | none => simp [hc, hs]

theorem stop_remove_mem_reconcileService (eng : Engine) (o : Service → IterOrders)
    (s : Service) (h : findExistingId (containersOf eng) s.name ≠ "") :
    EngineCall.stop (findExistingId (containersOf eng) s.name) 10 ∈
        (reconcileService eng o s).1 ∧
      EngineCall.remove (findExistingId (containersOf eng) s.name) ∈
        (reconcileService eng o s).1 := by
  unfold reconcileService
  cases hc : eng.createResult (s.createContainerOptions (o s)).1 with
  | error e => simp [hc, h]
  | ok cid =>
    cases hs : eng.startResult cid with
    | some m => simp [hc, hs, h]
    | none => simp [hc, hs, h]

theorem reconcileService_list_error (eng : Engine) (o : Service → IterOrders)
    (s : Service) (msg : String) (hl : eng.listResult = .error msg) :
    (reconcileService eng o s).1 =
        [EngineCall.list, EngineCall.create (s.createContainerOptions (o s)).1] ∨
      ∃ cid, (reconcileService eng o s).1 =
        [EngineCall.list, EngineCall.create (s.createContainerOptions (o s)).1,
          EngineCall.start cid] := by
  unfold reconcileService containersOf
  rw [hl]
  cases hc : eng.createResult (s.createContainerOptions (o s)).1 with
  | error e => left; simp [findExistingId, hc]
  | ok cid =>
    cases hs : eng.startResult cid with
    | some m => right; exact ⟨cid, by simp [findExistingId, hc, hs]⟩
    | none => right; exact ⟨cid, by simp [findExistingId, hc, hs]⟩

/-! ### handler.New lemmas -/

theorem newHookLoop_some (o : Service → IterOrders) :
    ∀ (l : List Service) (acc out : GoMap (List Service)),
      newHookLoop o l acc = some out →
        out = l.foldl (fun m s => goAppendAt m s.image s) acc ∧
        ∀ s ∈ l, (s.createContainerOptions (o s)).2 = none := by
  intro l
  induction l with
  | nil =>
    intro acc out h
    simp only [newHookLoop, Option.some.injEq] at h
    simp [h.symm]
  | cons s rest ih =>
    intro acc out h
    simp only [newHookLoop] at h
    cases hc : (s.createContainerOptions (o s)).2 with
    | some e => rw [hc] at h; cases h
    | none =>
      rw [hc] at h
      obtain ⟨ha, hall⟩ := ih _ _ h
      refine ⟨by simpa using ha, ?_⟩
      intro t ht
      rcases List.mem_cons.mp ht with rfl | ht
      · exact hc
      · exact hall t ht

theorem newHook_some (services : List Service) (o : Service → IterOrders)
    (clientOk pingOk : Bool) (idx : GoMap (List Service))
    (h : newHook services o clientOk pingOk = some idx) :
    idx = buildImageIndex services ∧
      ∀ s ∈ services, (s.createContainerOptions (o s)).2 = none := by
  unfold newHook at h
  cases hl : newHookLoop o services [] with
  | none => rw [hl] at h; cases h
  | some idx2 =>
    rw [hl] at h
    have := newHookLoop_some o services [] idx2 hl
    cases clientOk with
    | false => simp at h
    | true =>
      cases pingOk with
      | false => simp at h
      | true =>
        simp at h
        subst h
        exact ⟨this.1, this.2⟩

/-- Inversion of the resolve step: a match comes either from the exact
image lookup or, when that one misses and the tag is latest, from the bare
repository lookup. -/
theorem resolveServices_eq_some {index : GoMap (List Service)} {repoName tag : String}
    {found : List Service}
    (h : resolveServices index repoName tag = some found) :
    goLookup index (repoName ++ ":" ++ tag) = some found ∨
      (goLookup index (repoName ++ ":" ++ tag) = none ∧
        tag = "latest" ∧ goLookup index repoName = some found) := by
  unfold resolveServices at h
  cases hl : goLookup index (repoName ++ ":" ++ tag) with
  | some l =>
    rw [hl] at h
    have h2 : some l = some found := h
    exact Or.inl h2
  | none =>
    rw [hl] at h
    have h2 : (if tag == "latest" then goLookup index repoName else none) = some found := h
    cases htag : (tag == "latest") with
    | true =>
      rw [htag] at h2
      simp only [if_true] at h2
      exact Or.inr ⟨rfl, by simpa using htag, h2⟩
    | false =>
      rw [htag] at h2
      simp at h2

/-! ### Concrete fixtures for witnesses and counterexamples -/

/-- A valid iteration order enumerates exactly the keys of each map. -/
def IterOrders.validFor (o : IterOrders) (s : Service) : Prop :=
  o.envOrder.Perm (s.environment.map Prod.fst) ∧
  o.netOrder.Perm (s.networks.map Prod.fst) ∧
  o.ulimitOrder.Perm (s.ulimits.map Prod.fst)

instance (o : IterOrders) (s : Service) : Decidable (o.validFor s) := by
  unfold IterOrders.validFor
  infer_instance

/-- The names of the containers a call trace creates, in call order. -/
def createdNames (calls : List EngineCall) : List String :=
  calls.filterMap (fun c =>
    match c with
    | .create opts => some opts.name
    | _ => none)

def envService : Service :=
  { name := "web"
    image := "acme/app"
    environment := [("A", some "1"), ("B", some "2")] }

def ordAB : IterOrders := { envOrder := ["A", "B"] }

def ordBA : IterOrders := { envOrder := ["B", "A"] }

def sAlpha : Service := { name := "alpha", image := "acme/app" }

def sBeta : Service := { name := "beta", image := "acme/app" }

def sUntagged : Service := { name := "web", image := "acme/app" }

def devService : Service := { name := "d", image := "img", devices := ["abc"] }

def hookAcme : HookRequest :=
  { callbackURL := "http://cb/done"
    pushData := { tag := "latest" }
    repository := { repoName := "acme/app" } }

def hookOther : HookRequest :=
  { callbackURL := "http://cb/other"
    pushData := { tag := "v1" }
    repository := { repoName := "other/repo" } }

def engPullFail : Engine := { pullResult := fun _ _ => some "no such image" }

def engCreateFail : Engine := { createResult := fun _ => .error "create failed" }

def engTeardownFail : Engine :=
  { listResult := .ok [{ id := "1234", names := ["/web"] }]
    stopResult := fun _ => some "stop failed"
    removeResult := fun _ => some "remove failed"
    createResult := fun _ => .ok "5678" }

def engListFail : Engine :=
  { listResult := .error "cannot connect"
    createResult := fun _ => .ok "99" }

/-! ### The claims -/

/-- C1, counterexample: compiling the identical Service under two iteration
orders of its environment map, both of which enumerate exactly its keys and
so both of which occur in real executions, yields different serialized
environment lists, so compilation is not deterministic as the claim states
it. -/
theorem compile_env_order_not_deterministic :
    ordAB.validFor envService ∧ ordBA.validFor envService ∧
      envService.createContainerOptions ordAB ≠ envService.createContainerOptions ordBA := by
  refine ⟨by decide, by decide, by decide⟩

/-- C1, amended: compilation of a Service is deterministic up to the Go map
iteration orders: for any two iteration orders (permutations of one
another), the error outcome and every field outside the environment list,
the ulimits list and the endpoint map agree exactly, and those three
collections agree up to permutation. -/
theorem compile_deterministic_up_to_iteration_order (s : Service) (o1 o2 : IterOrders)
    (he : o1.envOrder.Perm o2.envOrder) (hn : o1.netOrder.Perm o2.netOrder)
    (hu : o1.ulimitOrder.Perm o2.ulimitOrder) :
    (s.createContainerOptions o1).2 = (s.createContainerOptions o2).2 ∧
    scrubMapDerived (s.createContainerOptions o1).1 =
      scrubMapDerived (s.createContainerOptions o2).1 ∧
    ((s.createContainerOptions o1).1.config.env).Perm
      ((s.createContainerOptions o2).1.config.env) ∧
    ((s.createContainerOptions o1).1.hostConfig.ulimits).Perm
      ((s.createContainerOptions o2).1.hostConfig.ulimits) ∧
    (endpointsOf (s.createContainerOptions o1).1).Perm
      (endpointsOf (s.createContainerOptions o2).1) := by
  refine ⟨?_, ?_, ?_, ?_, ?_⟩
  · rw [createContainerOptions_snd, createContainerOptions_snd]
  · exact scrub_compileWith s _ _ _ _ _ _
  · unfold Service.createContainerOptions
    rw [compileWith_env, compileWith_env]
    cases (devicesOf s.devices).2 with
    | some er => exact List.Perm.refl _
    | none =>
      by_cases hl : 0 < s.environment.length
      · rw [if_pos hl, if_pos hl]
        exact (iterGoMap_perm s.environment he).map envEntryString
      · rw [if_neg hl, if_neg hl]
  · unfold Service.createContainerOptions
    rw [compileWith_ulimits, compileWith_ulimits]
    by_cases hl : 0 < s.ulimits.length
    · rw [if_pos hl, if_pos hl]
      exact (iterGoMap_perm s.ulimits hu).map _
    · rw [if_neg hl, if_neg hl]
  · unfold Service.createContainerOptions endpointsOf
    rw [compileWith_networkingConfig, compileWith_networkingConfig]
    by_cases hl : 0 < s.networks.length
    · rw [if_pos hl, if_pos hl]
      exact (iterGoMap_perm s.networks hn).map _
    · rw [if_neg hl, if_neg hl]

theorem compile_deterministic_up_to_iteration_order_witness :
    ((envService.createContainerOptions ordAB).1.config.env).Perm
      ((envService.createContainerOptions ordBA).1.config.env) :=
  (compile_deterministic_up_to_iteration_order envService ordAB ordBA (by decide) (by decide)
    (by decide)).2.2.1

/-- C2, counterexample: a configuration file declaring services beta then
alpha (same image) is loaded into name-sorted order, so the reconciliation
loop visits alpha before beta, not in declaration order. -/
theorem declaration_order_not_preserved :
    [sBeta, sAlpha].map Service.name = ["beta", "alpha"] ∧
    resolveServices (buildImageIndex (sortServicesByName [sBeta, sAlpha])) "acme/app" "latest" =
      some [sAlpha, sBeta] ∧
    createdNames
        (serveHook {} (fun _ => ({} : IterOrders))
          (buildImageIndex (sortServicesByName [sBeta, sAlpha])) hookAcme).calls =
      ["alpha", "beta"] ∧
    ["alpha", "beta"] ≠ ["beta", "alpha"] := by
  refine ⟨by decide, by decide, by decide, by decide⟩

/-- C2, amended: the per-service reconciliation loop visits the matched
services in ascending service-name order — LoadConfig sorts the service
list by name before the index is built — which coincides with file
declaration order only when the declarations are already name-sorted. -/
theorem matched_services_name_sorted (declared : List Service) (repoName tag : String)
    (found : List Service)
    (h : resolveServices (buildImageIndex (sortServicesByName declared)) repoName tag =
      some found) :
    found.Pairwise (fun a b => nameLe a b = true) := by
  have hs := pairwise_sortServicesByName declared
  rcases resolveServices_eq_some h with hl | ⟨_, _, hl⟩ <;>
    (rw [goLookup_buildImageIndex_eq_some hl]; exact hs.filter _)

theorem matched_services_name_sorted_witness :
    ([sAlpha, sBeta] : List Service).Pairwise (fun a b => nameLe a b = true) :=
  matched_services_name_sorted [sBeta, sAlpha] "acme/app" "latest" [sAlpha, sBeta] (by decide)

/-- C3: when the exact image lookup misses and the tag is the literal
string latest, the handler retries the lookup with the bare repository
name, and a Service declared with an untagged image equal to that
repository is resolved by the fallback. -/
theorem latest_fallback_resolves_untagged (services : List Service) (s : Service)
    (repoName : String)
    (hmiss : goLookup (buildImageIndex services) (repoName ++ ":" ++ "latest") = none)
    (hs : s ∈ services) (him : s.image = repoName) :
    resolveServices (buildImageIndex services) repoName "latest" =
        goLookup (buildImageIndex services) repoName ∧
      ∃ found, resolveServices (buildImageIndex services) repoName "latest" = some found ∧
        s ∈ found := by
  have hres : resolveServices (buildImageIndex services) repoName "latest" =
      goLookup (buildImageIndex services) repoName := by
    unfold resolveServices
    rw [hmiss]
    simp
  refine ⟨hres, ?_⟩
  rw [hres, goLookup_buildImageIndex_of_mem hs him]
  refine ⟨_, rfl, ?_⟩
  rw [List.mem_filter]
  exact ⟨hs, by simp [him]⟩

theorem latest_fallback_resolves_untagged_witness :
    resolveServices (buildImageIndex [sUntagged]) "acme/app" "latest" =
      goLookup (buildImageIndex [sUntagged]) "acme/app" :=
  (latest_fallback_resolves_untagged [sUntagged] sUntagged "acme/app" (by decide) (by decide)
    rfl).1

/-- C4: an event whose image (after the latest fallback) matches no
configured service is a successful no-op: status 200, exactly one callback
fetch of the event callback URL, and no engine call at all. -/
theorem unmatched_event_is_noop (eng : Engine) (o : Service → IterOrders)
    (index : GoMap (List Service)) (hook : HookRequest)
    (h : resolveServices index hook.repository.repoName hook.pushData.tag = none) :
    serveHook eng o index hook =
      { status := 200, calls := [], callbacks := [hook.callbackURL] } := by
  unfold serveHook
  rw [h]

theorem unmatched_event_is_noop_witness :
    serveHook {} (fun _ => ({} : IterOrders)) (buildImageIndex [sUntagged]) hookOther =
      { status := 200, calls := [], callbacks := ["http://cb/other"] } :=
  unmatched_event_is_noop {} (fun _ => ({} : IterOrders)) (buildImageIndex [sUntagged])
    hookOther (by decide)

/-- C5: when the single pull of a matched event fails, the handler answers
500, the only engine call of the event is that pull — no list, stop,
remove, create or start happens — and the callback is not fetched. -/
theorem pull_failure_aborts_event (eng : Engine) (o : Service → IterOrders)
    (index : GoMap (List Service)) (hook : HookRequest) (found : List Service) (msg : String)
    (hres : resolveServices index hook.repository.repoName hook.pushData.tag = some found)
    (hpull : eng.pullResult hook.repository.repoName hook.pushData.tag = some msg) :
    serveHook eng o index hook =
      { status := 500
        calls := [EngineCall.pull hook.repository.repoName hook.pushData.tag]
        callbacks := [] } := by
  unfold serveHook
  rw [hres, hpull]

theorem pull_failure_aborts_event_witness :
    serveHook engPullFail (fun _ => ({} : IterOrders)) (buildImageIndex [sUntagged]) hookAcme =
      { status := 500, calls := [EngineCall.pull "acme/app" "latest"], callbacks := [] } :=
  pull_failure_aborts_event engPullFail (fun _ => ({} : IterOrders))
    (buildImageIndex [sUntagged]) hookAcme [sUntagged] "no such image" (by decide) rfl

/-- Evaluation of the handler on a matched event with a successful pull:
the outcome is decided by the reconciliation loop. -/
theorem serveHook_matched (eng : Engine) (o : Service → IterOrders)
    (index : GoMap (List Service)) (hook : HookRequest) (found : List Service)
    (hres : resolveServices index hook.repository.repoName hook.pushData.tag = some found)
    (hpull : eng.pullResult hook.repository.repoName hook.pushData.tag = none) :
    serveHook eng o index hook =
      if (reconcileLoop eng o found).2 = true then
        { status := 200
          calls := EngineCall.pull hook.repository.repoName hook.pushData.tag ::
            (reconcileLoop eng o found).1
          callbacks := [hook.callbackURL] }
      else
        { status := 500
          calls := EngineCall.pull hook.repository.repoName hook.pushData.tag ::
            (reconcileLoop eng o found).1
          callbacks := [] } := by
  unfold serveHook
  rw [hres, hpull]

/-- C6: when create or start fails for a matched service, the handler
answers 500 at once and fetches no callback; the full call trace of the
event is the pull, the traces of the services reconciled before the
failing one — each of which was created and started successfully and is
never touched again — and the failing service's own trace.  The trace is
computed from the earlier services and the failing one alone, so the
services after the failing one are never attempted. -/
theorem create_or_start_failure_aborts (eng : Engine) (o : Service → IterOrders)
    (index : GoMap (List Service)) (hook : HookRequest)
    (l1 : List Service) (s : Service) (l2 : List Service)
    (hres : resolveServices index hook.repository.repoName hook.pushData.tag =
      some (l1 ++ s :: l2))
    (hpull : eng.pullResult hook.repository.repoName hook.pushData.tag = none)
    (h1 : ∀ t ∈ l1, createStartOk eng o t)
    (h2 : ¬ createStartOk eng o s) :
    serveHook eng o index hook =
      { status := 500
        calls := EngineCall.pull hook.repository.repoName hook.pushData.tag ::
          ((l1.map (fun t => (reconcileService eng o t).1)).flatten ++
            (reconcileService eng o s).1)
        callbacks := [] } ∧
    ∀ t ∈ l1, EngineCall.create (t.createContainerOptions (o t)).1 ∈
      (serveHook eng o index hook).calls := by
  have h1b : ∀ t ∈ l1, (reconcileService eng o t).2 = true :=
    fun t ht => (reconcileService_snd_iff eng o t).mpr (h1 t ht)
  have h2b : (reconcileService eng o s).2 = false := by
    cases hb : (reconcileService eng o s).2 with
    | false => rfl
    | true => exact absurd ((reconcileService_snd_iff eng o s).mp hb) h2
  have hloop := reconcileLoop_first_fail eng o l1 s l2 h1b h2b
  have hserve : serveHook eng o index hook =
      { status := 500
        calls := EngineCall.pull hook.repository.repoName hook.pushData.tag ::
          ((l1.map (fun t => (reconcileService eng o t).1)).flatten ++
            (reconcileService eng o s).1)
        callbacks := [] } := by
    rw [serveHook_matched eng o index hook _ hres hpull, hloop]
    simp
  refine ⟨hserve, ?_⟩
  intro t ht
  rw [hserve]
  simp only [List.mem_cons, List.mem_append, List.mem_flatten, List.mem_map]
  exact Or.inr (Or.inl
    ⟨(reconcileService eng o t).1, ⟨t, ht, rfl⟩, create_mem_reconcileService eng o t⟩)

theorem create_or_start_failure_aborts_witness :
    (serveHook engCreateFail (fun _ => ({} : IterOrders)) (buildImageIndex [sUntagged])
        hookAcme).status = 500 ∧
      (serveHook engCreateFail (fun _ => ({} : IterOrders)) (buildImageIndex [sUntagged])
        hookAcme).callbacks = [] := by
  have h := (create_or_start_failure_aborts engCreateFail (fun _ => ({} : IterOrders))
    (buildImageIndex [sUntagged]) hookAcme [] sUntagged [] (by decide) rfl (by simp)
    (by rintro ⟨cid, hc, _⟩; cases hc)).1
  rw [h]
  exact ⟨rfl, rfl⟩

/-- C7: failures of the stop or remove calls never abort an event — the
handler only logs them, and the loop outcome does not read them at all —
so when create and start succeed for every matched service the handler
answers 200 and fetches the callback, and for every matched service with
an existing container named slash-name the stop and remove calls are still
made.  The theorem places no assumption on the stop and remove results,
which may all be failures. -/
theorem teardown_failure_does_not_abort (eng : Engine) (o : Service → IterOrders)
    (index : GoMap (List Service)) (hook : HookRequest) (found : List Service)
    (hres : resolveServices index hook.repository.repoName hook.pushData.tag = some found)
    (hpull : eng.pullResult hook.repository.repoName hook.pushData.tag = none)
    (hok : ∀ t ∈ found, createStartOk eng o t) :
    (serveHook eng o index hook).status = 200 ∧
    (serveHook eng o index hook).callbacks = [hook.callbackURL] ∧
    ∀ t ∈ found, findExistingId (containersOf eng) t.name ≠ "" →
      EngineCall.stop (findExistingId (containersOf eng) t.name) 10 ∈
          (serveHook eng o index hook).calls ∧
        EngineCall.remove (findExistingId (containersOf eng) t.name) ∈
          (serveHook eng o index hook).calls := by
  have hb : ∀ t ∈ found, (reconcileService eng o t).2 = true :=
    fun t ht => (reconcileService_snd_iff eng o t).mpr (hok t ht)
  have hloop := reconcileLoop_all_ok eng o found hb
  have hserve : serveHook eng o index hook =
      { status := 200
        calls := EngineCall.pull hook.repository.repoName hook.pushData.tag ::
          (found.map (fun t => (reconcileService eng o t).1)).flatten
        callbacks := [hook.callbackURL] } := by
    rw [serveHook_matched eng o index hook _ hres hpull, hloop]
    simp
  rw [hserve]
  refine ⟨rfl, rfl, ?_⟩
  intro t ht hid
  have hsr := stop_remove_mem_reconcileService eng o t hid
  constructor
  · simp only [List.mem_cons, List.mem_flatten, List.mem_map]
    exact Or.inr ⟨(reconcileService eng o t).1, ⟨t, ht, rfl⟩, hsr.1⟩
  · simp only [List.mem_cons, List.mem_flatten, List.mem_map]
    exact Or.inr ⟨(reconcileService eng o t).1, ⟨t, ht, rfl⟩, hsr.2⟩

theorem teardown_failure_does_not_abort_witness :
    (serveHook engTeardownFail (fun _ => ({} : IterOrders)) (buildImageIndex [sUntagged])
        hookAcme).status = 200 ∧
      (serveHook engTeardownFail (fun _ => ({} : IterOrders)) (buildImageIndex [sUntagged])
        hookAcme).callbacks = ["http://cb/done"] := by
  have h := teardown_failure_does_not_abort engTeardownFail (fun _ => ({} : IterOrders))
    (buildImageIndex [sUntagged]) hookAcme [sUntagged] (by decide) rfl
    (by
      intro t ht
      rw [List.mem_singleton] at ht
      subst ht
      exact ⟨"5678", rfl, rfl⟩)
  exact ⟨h.1, h.2.1⟩

/-- C8: compilation returns an error exactly when some declared device
string does not split into exactly two parts at the colon; when every
device is well formed the compiled spec carries one device record per
declaration, host path and container path in order. -/
theorem compile_error_iff_invalid_device (s : Service) (o : IterOrders) :
    match (s.createContainerOptions o).2 with
    | some _ => ∃ d ∈ s.devices, (goSplit ':' d).length ≠ 2
    | none =>
      (∀ d ∈ s.devices, (goSplit ':' d).length = 2) ∧
        (s.createContainerOptions o).1.hostConfig.devices = s.devices.map deviceOf := by
  rw [createContainerOptions_snd]
  cases hd : (devicesOf s.devices).2 with
  | some er =>
    have hne : ¬ ∀ d ∈ s.devices, (goSplit ':' d).length = 2 := by
      intro hall
      rw [(devicesOf_none_iff s.devices).mpr hall] at hd
      cases hd
    push_neg at hne
    exact hne
  | none =>
    refine ⟨(devicesOf_none_iff s.devices).mp hd, ?_⟩
    unfold Service.createContainerOptions
    rw [compileWith_devices, devicesOf_fst_of_none s.devices hd]
    by_cases hl : 0 < s.devices.length
    · rw [if_pos hl]
    · rw [if_neg hl]
      have he : s.devices = [] := by
        cases hdev : s.devices with
        | nil => rfl
        | cons a rest => rw [hdev] at hl; simp at hl
      rw [he]
      rfl

theorem compile_error_iff_invalid_device_witness :
    ∃ d ∈ devService.devices, (goSplit ':' d).length ≠ 2 :=
  compile_error_iff_invalid_device devService ({} : IterOrders)

/-- C9: when New succeeded, every service reachable through the image
index compiles without an error under every iteration order, so the
discarded error of the recompilation inside the reconciliation loop is
always nil: malformed declarations are rejected before serving starts. -/
theorem new_success_makes_recompile_error_free (services : List Service)
    (o : Service → IterOrders) (clientOk pingOk : Bool) (idx : GoMap (List Service))
    (h : newHook services o clientOk pingOk = some idx) :
    ∀ (k : String) (l : List Service), goLookup idx k = some l →
      ∀ s ∈ l, ∀ (o2 : IterOrders), (s.createContainerOptions o2).2 = none := by
  obtain ⟨hidx, hall⟩ := newHook_some services o clientOk pingOk idx h
  intro k l hl s hs o2
  subst hidx
  have hflt := goLookup_buildImageIndex_eq_some hl
  rw [hflt] at hs
  have hmem := (List.mem_filter.mp hs).1
  have h0 := hall s hmem
  rw [createContainerOptions_snd] at h0
  rw [createContainerOptions_snd]
  exact h0

theorem new_success_makes_recompile_error_free_witness :
    (sUntagged.createContainerOptions { envOrder := ["X"] }).2 = none :=
  new_success_makes_recompile_error_free [sUntagged] (fun _ => ({} : IterOrders)) true true
    (buildImageIndex [sUntagged]) (by decide) "acme/app" [sUntagged] (by decide) sUntagged
    (by decide) { envOrder := ["X"] }

/-- C10: when the list-containers call fails, reconciliation proceeds as if
no existing container matched: every per-service trace is exactly the list
call followed by the create call (and the start call when creation
succeeded), with no stop and no remove; and when create and start succeed
for every matched service, the event still ends with 200 and the
callback — a list failure alone never causes an error response. -/
theorem list_failure_soldiers_on (eng : Engine) (o : Service → IterOrders)
    (index : GoMap (List Service)) (hook : HookRequest) (found : List Service) (msg : String)
    (hlist : eng.listResult = .error msg)
    (hres : resolveServices index hook.repository.repoName hook.pushData.tag = some found)
    (hpull : eng.pullResult hook.repository.repoName hook.pushData.tag = none) :
    (∀ s : Service,
      (reconcileService eng o s).1 =
          [EngineCall.list, EngineCall.create (s.createContainerOptions (o s)).1] ∨
        ∃ cid, (reconcileService eng o s).1 =
          [EngineCall.list, EngineCall.create (s.createContainerOptions (o s)).1,
            EngineCall.start cid]) ∧
    ((∀ t ∈ found, createStartOk eng o t) →
      (serveHook eng o index hook).status = 200 ∧
        (serveHook eng o index hook).callbacks = [hook.callbackURL]) := by
  refine ⟨fun s => reconcileService_list_error eng o s msg hlist, ?_⟩
  intro hok
  have hb : ∀ t ∈ found, (reconcileService eng o t).2 = true :=
    fun t ht => (reconcileService_snd_iff eng o t).mpr (hok t ht)
  have hloop := reconcileLoop_all_ok eng o found hb
  have hserve : serveHook eng o index hook =
      { status := 200
        calls := EngineCall.pull hook.repository.repoName hook.pushData.tag ::
          (found.map (fun t => (reconcileService eng o t).1)).flatten
        callbacks := [hook.callbackURL] } := by
    rw [serveHook_matched eng o index hook _ hres hpull, hloop]
    simp
  rw [hserve]
  exact ⟨rfl, rfl⟩

theorem list_failure_soldiers_on_witness :
    (serveHook engListFail (fun _ => ({} : IterOrders)) (buildImageIndex [sUntagged])
        hookAcme).status = 200 ∧
      (serveHook engListFail (fun _ => ({} : IterOrders)) (buildImageIndex [sUntagged])
        hookAcme).callbacks = ["http://cb/done"] :=
  (list_failure_soldiers_on engListFail (fun _ => ({} : IterOrders))
    (buildImageIndex [sUntagged]) hookAcme [sUntagged] "cannot connect" rfl (by decide) rfl).2
    (by
      intro t ht
      rw [List.mem_singleton] at ht
      subst ht
      exact ⟨"99", rfl, rfl⟩)

end Redeploy
